import Mathlib

/-!
Verification of the `egp-utils` storage engine against its specification.

The development shallowly embeds the two core components of the repository:

* `src/egp_utils/store.py` — the position-keyed store family (`store`,
  `static_store`, `dynamic_store` and `_dynamic_store_member`);
* `src/egp_utils/packed_store.py` — the reference-keyed packed store
  (`packed_store`, `entry`, `next_idx_generator`, `allocate`,
  `indexed_store` and `_indexed_store_allocation`).

Python dictionaries are modelled as insertion-ordered association lists,
numpy column arrays as total functions pre-filled with the field default
(`allocate` creates each block with `full(shape, default)`, so a model in
which every block is default-filled from the start and the allocation call
is a no-op has exactly the observable behaviour of the source), and raised
exceptions as `Except.error` with a message mirroring the source message.
Field values of arbitrary numpy type are represented by `Int`; the boolean
`__modified__` column stores `0`/`1` (Python truthiness of the stored value
is `≠ 0`).
-/

/-! ## Association lists (Python `dict` with insertion order) -/

/-- First-match lookup in an association list, the model of `d[k]` /
`d.get(k)` on a Python `dict` whose keys are unique. -/
def alookup {α β : Type} [DecidableEq α] (k : α) : List (α × β) → Option β
  | [] => none
  | (k', v) :: t => if k' = k then some v else alookup k t

theorem alookup_append_right {α β : Type} [DecidableEq α] (k : α) (v : β)
    (l : List (α × β)) (h : alookup k l = none) :
    alookup k (l ++ [(k, v)]) = some v := by
  induction l with
  | nil => simp [alookup]
  | cons hd t ih =>
    simp only [alookup] at h ⊢
    by_cases hk : hd.1 = k
    · simp [hk] at h
    · cases hd
      simp_all [alookup]

theorem alookup_append_left {α β : Type} [DecidableEq α] (k k' : α) (v : β)
    (l : List (α × β)) (h : k' ≠ k) :
    alookup k (l ++ [(k', v)]) = alookup k l := by
  induction l with
  | nil => simp [alookup, h]
  | cons hd t ih => cases hd; simp_all [alookup]

theorem alookup_eq_none_of_not_mem {α β : Type} [DecidableEq α] (k : α)
    (l : List (α × β)) (h : k ∉ l.map Prod.fst) : alookup k l = none := by
  induction l with
  | nil => rfl
  | cons hd t ih =>
    cases hd with
    | mk k' v =>
      simp only [List.map_cons, List.mem_cons] at h
      push_neg at h
      have hne : ¬ k' = k := fun hx => h.1 hx.symm
      simp [alookup, hne, ih h.2]

theorem mem_of_alookup_eq_some {α β : Type} [DecidableEq α] (k : α) (v : β)
    (l : List (α × β)) (h : alookup k l = some v) : k ∈ l.map Prod.fst := by
  induction l with
  | nil => simp [alookup] at h
  | cons hd t ih =>
    cases hd with
    | mk k' v' =>
      simp only [alookup] at h
      by_cases hk : k' = k
      · simp [hk]
      · simp only [hk, if_false] at h
        simp [ih h]

/-! ## Position-keyed store family (`src/egp_utils/store.py`) -/

/-- State of the `store` base class: `_empty_indices`, `_size`,
`_remaining` and `_last_index`. -/
structure StoreState where
  empty_indices : List Nat
  size : Nat
  remaining : Nat
  last_index : Int
deriving DecidableEq, Repr

/-- `store.__init__(size)`. -/
def store_init (size : Nat) : StoreState :=
  { empty_indices := [], size := size, remaining := size, last_index := -1 }

/-- `store.__len__`: `size - remaining` while fresh capacity remains, else
`size - len(empty_indices)`. -/
def store_len (s : StoreState) : Nat :=
  if s.remaining ≠ 0 then s.size - s.remaining else s.size - s.empty_indices.length

/-- `store.next_index`: issue the fresh counter while `_remaining` is
truthy, else pop the front (oldest) of `_empty_indices`, else raise
`OverflowError`. -/
def next_index (s : StoreState) : Except String (Nat × StoreState) :=
  if s.remaining ≠ 0 then
    let rem := s.remaining - 1
    let li := s.size - rem - 1
    .ok (li, { s with remaining := rem, last_index := (li : Int) })
  else
    match s.empty_indices with
    | i :: rest => .ok (i, { s with empty_indices := rest, last_index := (i : Int) })
    | [] => .error "No more space available."

/-- `store.assertions`: `len(empty_indices) <= size` and, while fresh
capacity remains, the free queue must be empty. -/
def store_assertions (s : StoreState) : Prop :=
  s.empty_indices.length ≤ s.size ∧ (s.remaining ≠ 0 → s.empty_indices = [])

/-- `store.empty_indices()`: the never-issued tail range while fresh
capacity remains, else the free queue. -/
def store_empty_indices (s : StoreState) : List Nat :=
  if s.remaining ≠ 0 then List.range' (store_len s) (s.size - store_len s)
  else s.empty_indices

/-- A `static_store` with its data members: the base `store` state plus the
member arrays (member name → position → value). -/
structure StaticStore where
  base : StoreState
  members : String → Nat → Int

/-- `static_store.__delitem__`: `self._empty_indices.append(idx)` — the
only effect is appending to the free queue. -/
def sstore_delitem (s : StaticStore) (idx : Nat) : StaticStore :=
  { s with base := { s.base with empty_indices := s.base.empty_indices ++ [idx] } }

/-- Mask `2^log2size - 1`, the source's `self._mask`/`self._idx_mask`
(`(1 << log2size) - 1`). -/
def idxMask (log2size : Nat) : Nat := (1 <<< log2size) - 1

theorem idxMask_eq (k : Nat) : idxMask k = 2 ^ k - 1 := by
  simp [idxMask, Nat.one_shiftLeft]

theorem and_idxMask (n k : Nat) : n &&& idxMask k = n % 2 ^ k := by
  rw [idxMask_eq]
  exact Nat.and_pow_two_sub_one_eq_mod n k

/-- Reconstruction of a global position from its block id and offset. -/
theorem block_offset_decomp (k fi : Nat) :
    (fi >>> k) * 2 ^ k + (fi &&& idxMask k) = fi := by
  rw [and_idxMask, Nat.shiftRight_eq_div_pow, Nat.mul_comm]
  exact Nat.div_add_mod fi (2 ^ k)

/-- Two global positions with the same block id and offset are equal. -/
theorem block_offset_inj (k fi fj : Nat) (h1 : fi >>> k = fj >>> k)
    (h2 : fi &&& idxMask k = fj &&& idxMask k) : fi = fj := by
  have hfi := block_offset_decomp k fi
  have hfj := block_offset_decomp k fj
  rw [h1, h2] at hfi
  omega

/-- One block of a dynamic store, reduced to its member columns
(member name → local offset → value); `clone()` produces a block with
freshly created (uninitialised) arrays, modelled by an arbitrary
`fresh` column function. -/
def DynBlock : Type := String → Nat → Int

/-- `_dynamic_store_member.__setitem__`: append clones until block
`idx >> log2size` exists, then write member `m` of that block at offset
`idx & mask`. -/
def dyn_member_set (stores : List DynBlock) (log2size : Nat) (fresh : DynBlock)
    (m : String) (idx : Nat) (val : Int) : List DynBlock :=
  let store_idx := idx >>> log2size
  let ss := if stores.length ≤ store_idx then
      stores ++ List.replicate (store_idx + 1 - stores.length) fresh
    else stores
  ss.set store_idx (fun m' i =>
    if m' = m ∧ i = idx &&& idxMask log2size then val
    else ss.getD store_idx fresh m' i)

/-- `_dynamic_store_member.__getitem__`:
`cls._stores[idx >> log2size][member][idx & mask]` (`none` when the block
index is out of range, where the source raises `IndexError`). -/
def dyn_member_get (stores : List DynBlock) (log2size : Nat) (m : String)
    (idx : Nat) : Option Int :=
  (stores.get? (idx >>> log2size)).map (fun b => b m (idx &&& idxMask log2size))

/-! ## Reference-keyed packed store (`src/egp_utils/packed_store.py`) -/

/-- A field definition (`Field` TypedDict), reduced to the attributes the
store's behaviour depends on: the default value and the read-only flag.
(The `type`/`length` attributes select the numpy array layout, and the
`read_count`/`write_count` attributes are debug accounting.) -/
structure FieldSpec where
  default : Int
  read_only : Bool
deriving DecidableEq, Repr

/-- The `_MODIFIED` field definition: `default` False (= 0), writable. -/
def fieldMODIFIED : FieldSpec := { default := 0, read_only := false }

/-- Python `dict` assignment `d[k] = v` on an association list: overwrite
in place when the key exists, else append (insertion order preserved). -/
def dictSet (l : List (String × FieldSpec)) (k : String) (v : FieldSpec) :
    List (String × FieldSpec) :=
  if l.any (fun kv => kv.1 = k) then
    l.map (fun kv => if kv.1 = k then (k, v) else kv)
  else l ++ [(k, v)]

/-- Default value of field `k` in a schema (0 for an unknown key; the
source never reads a default for a key outside the schema). -/
def fieldDefault (fields : List (String × FieldSpec)) (k : String) : Int :=
  match alookup k fields with
  | some f => f.default
  | none => 0

/-- `self.writable_fields`: the fields whose `read_only` flag is false,
in schema order. -/
def writableFields (fields : List (String × FieldSpec)) :
    List (String × FieldSpec) :=
  fields.filter (fun kv => !kv.2.read_only)

/-- State of a `packed_store`.

`data` maps a field name to its column, a function of
(allocation id, index inside the allocation).  Each allocation block is
created by `allocate` as `full(shape, default)`, so in the model every
column is default-filled from the start and growing the store is a no-op
on `data`.  The generator state of `next_idx_generator` reduces to the
next fresh full index `nextFresh` (fresh indices are yielded consecutively
across allocation rounds) together with the shared `empty_list`. -/
structure PackedStore where
  delta_size : Nat
  fields : List (String × FieldSpec)
  ref_to_idx : List (Int × Nat)
  data : String → Nat → Nat → Int
  empty_list : List Nat
  nextFresh : Nat

/-- `packed_store.__init__(fields, delta_size)`: add the `__modified__`
field, start with no refs, default-filled columns, an empty free list, and
consume index 0 from the generator (`next(self._idx)` — index 0 is
reserved for the null reference). -/
def mkPackedStore (ufields : List (String × FieldSpec)) (delta_size : Nat) :
    PackedStore :=
  let fields := dictSet ufields "__modified__" fieldMODIFIED
  { delta_size := delta_size
    fields := fields
    ref_to_idx := []
    data := fun k _ _ => fieldDefault fields k
    empty_list := []
    nextFresh := 1 }

/-- Point update of one cell of one column. -/
def writeData (d : String → Nat → Nat → Int) (k : String) (a i : Nat)
    (v : Int) : String → Nat → Nat → Int :=
  fun k' a' i' => if k' = k ∧ a' = a ∧ i' = i then v else d k' a' i'

/-- One step of `next_idx_generator`: deleted indices on `empty_list` are
yielded first (oldest first, `empty_list.pop(0)`), else the next fresh
index is yielded. -/
def nextIdx (s : PackedStore) : Nat × PackedStore :=
  match s.empty_list with
  | i :: rest => (i, { s with empty_list := rest })
  | [] => (s.nextFresh, { s with nextFresh := s.nextFresh + 1 })

/-- The loop of `packed_store.__setitem__` over `value.items()`: skip
values that are `None` ("unset"), write declared fields
(`self.data.get(k, self._devnull)` swallows writes to undeclared keys)
at the fixed (allocation, index) cell. -/
def applyValues (fields : List (String × FieldSpec)) (a i : Nat)
    (v : List (String × Option Int)) (d : String → Nat → Nat → Int) :
    String → Nat → Nat → Int :=
  match v with
  | [] => d
  | (_, none) :: t => applyValues fields a i t d
  | (k, some x) :: t =>
      applyValues fields a i t
        (if (alookup k fields).isSome then writeData d k a i x else d)

/-- The reset loop of `packed_store.__delitem__` over `self.fields`:
every field (the `__modified__` column included) is written back to its
schema default at the deleted (allocation, index) cell. -/
def resetFields (fields : List (String × FieldSpec)) (a i : Nat)
    (d : String → Nat → Nat → Int) : String → Nat → Nat → Int :=
  match fields with
  | [] => d
  | (k, f) :: t => resetFields t a i (writeData d k a i f.default)

/-- `packed_store.__setitem__(ref, value)` — create-or-update. -/
def packed_setitem (s : PackedStore) (ref : Int)
    (value : List (String × Option Int)) : Except String PackedStore :=
  if ref = 0 then .error "Cannot set the 0 (null) reference."
  else
    let mfs : Bool × Nat × PackedStore :=
      match alookup ref s.ref_to_idx with
      | none =>
          let fs := nextIdx s
          (false, fs.1, { fs.2 with ref_to_idx := fs.2.ref_to_idx ++ [(ref, fs.1)] })
      | some fi => (true, fi, s)
    let a := mfs.2.1 >>> s.delta_size
    let i := mfs.2.1 &&& idxMask s.delta_size
    let d0 := writeData mfs.2.2.data "__modified__" a i (if mfs.1 then 1 else 0)
    .ok { mfs.2.2 with data := applyValues s.fields a i value d0 }

/-- An `entry`: a non-owning view of one slot, carrying the allocation id,
the index inside the allocation and the field set it exposes.  (The
`_data` member aliases the owning store's `data`, which the model threads
explicitly through `entry_getitem`/`entry_setitem`.) -/
structure PackedEntry where
  allocation : Nat
  idx : Nat
  fields : List (String × FieldSpec)
deriving DecidableEq, Repr

/-- `packed_store.__getitem__(ref)` — read. -/
def packed_getitem (s : PackedStore) (ref : Int) :
    Except String PackedEntry :=
  if ref = 0 then .error "Cannot read the 0 (null) reference."
  else
    match alookup ref s.ref_to_idx with
    | none => .error "KeyError: ref is not in the store."
    | some fi =>
        .ok { allocation := fi >>> s.delta_size
              idx := fi &&& idxMask s.delta_size
              fields := s.fields }

/-- `packed_store.__delitem__(ref)` — delete. -/
def packed_delitem (s : PackedStore) (ref : Int) :
    Except String PackedStore :=
  if ref = 0 then .error "Cannot delete the 0 (null) reference."
  else
    match alookup ref s.ref_to_idx with
    | none => .error "KeyError: ref is not in the store."
    | some fi =>
        let a := fi >>> s.delta_size
        let i := fi &&& idxMask s.delta_size
        .ok { s with
              ref_to_idx := s.ref_to_idx.filter (fun kv => kv.1 ≠ ref)
              empty_list := s.empty_list ++ [fi]
              data := resetFields s.fields a i s.data }

/-- `packed_store.__contains__(ref)`:
`ref in self.ref_to_idx if ref else False`. -/
def packed_contains (s : PackedStore) (ref : Int) : Bool :=
  if ref ≠ 0 then (alookup ref s.ref_to_idx).isSome else false

/-- `entry.__getitem__(key)`: the debug assertion `key in self.fields`
fails for an undeclared key (and without debug the `self._data[key]`
lookup raises the same way, the data dict having the same keys);
otherwise return the cell. -/
def entry_getitem (s : PackedStore) (e : PackedEntry) (key : String) :
    Except String Int :=
  if (alookup key e.fields).isNone then .error "key is not a key in data."
  else .ok (s.data key e.allocation e.idx)

/-- Whether `key` names a read-only field of the schema. -/
def readOnlyField (fields : List (String × FieldSpec)) (key : String) : Bool :=
  match alookup key fields with
  | some f => f.read_only
  | none => false

/-- `entry.__setitem__(key, value)`.  The read-only check is an `assert`
under `if __debug__:`, so it only runs when `debug` is true; the
missing-key failure happens in both modes (debug assertion, or `KeyError`
from `self._data[key]`).  A successful write stores the value and sets the
slot's `__modified__` flag. -/
def entry_setitem (debug : Bool) (s : PackedStore) (e : PackedEntry)
    (key : String) (v : Int) : Except String PackedStore :=
  if (alookup key s.fields).isNone then .error "KeyError: key is not a key in data."
  else if debug && readOnlyField s.fields key then
    .error "Writing to read-only field."
  else
    let d1 := writeData s.data key e.allocation e.idx v
    .ok { s with data := writeData d1 "__modified__" e.allocation e.idx 1 }

/-- `packed_store.modified(all_fields)`: scan `ref_to_idx.values()` in
order and yield an entry view for every slot whose `__modified__` cell is
truthy; the view carries all fields or only the writable ones. -/
def packed_modified (s : PackedStore) (all_fields : Bool) :
    List PackedEntry :=
  let fs := if all_fields then s.fields else writableFields s.fields
  (s.ref_to_idx.map Prod.snd).filterMap (fun fi =>
    let a := fi >>> s.delta_size
    let i := fi &&& idxMask s.delta_size
    if s.data "__modified__" a i ≠ 0 then some ⟨a, i, fs⟩ else none)

/-- Value of field `k` at full index `fi` of the store. -/
def dataAt (s : PackedStore) (k : String) (fi : Nat) : Int :=
  s.data k (fi >>> s.delta_size) (fi &&& idxMask s.delta_size)

/-- `fi` is not the slot of any live reference. -/
def slotFree (s : PackedStore) (fi : Nat) : Prop :=
  ∀ r : Int, alookup r s.ref_to_idx ≠ some fi

/-- Invariant of a reachable `packed_store` state: schema keys are unique;
free slots hold the schema defaults; the free list holds distinct, already
allocated, unmapped slots; live slots are below the fresh counter and no
slot is shared by two references.  It holds for `mkPackedStore` (with a
duplicate-free schema) and is preserved by the store operations. -/
def storeInv (s : PackedStore) : Prop :=
  (s.fields.map Prod.fst).Nodup
  ∧ (∀ k f, alookup k s.fields = some f →
      ∀ fi, slotFree s fi → dataAt s k fi = f.default)
  ∧ (∀ fi ∈ s.empty_list, slotFree s fi)
  ∧ s.empty_list.Nodup
  ∧ (∀ fi ∈ s.empty_list, fi < s.nextFresh)
  ∧ (∀ (r : Int) (fi : Nat), alookup r s.ref_to_idx = some fi → fi < s.nextFresh)
  ∧ (∀ (r1 r2 : Int) (fi : Nat), alookup r1 s.ref_to_idx = some fi →
      alookup r2 s.ref_to_idx = some fi → r1 = r2)

/-! ## Indirection store (`indexed_store` / `_indexed_store_allocation`) -/

/-- Combined state of an `_indexed_store_allocation` and the
`indexed_store` it aliases: the shared value array `_data` (index 0
reserved as "absent", `None` entries cleared), the shared free set
`_empty_set` (modelled as a list; `set.pop()` removes an unspecified
element, the model removes the head) and the dense index array
`_allocation` (created as `full(size, 0)`). -/
structure IndexedAlloc where
  data : List (Option Int)
  empty_set : List Nat
  allocation : Nat → Nat

/-- A fresh `indexed_store().allocate()`: `_data = [None]`, empty free
set, all-zero index array. -/
def indexed_alloc_init : IndexedAlloc :=
  { data := [none], empty_set := [], allocation := fun _ => 0 }

/-- `_indexed_store_allocation.__setitem__(idx, value)`.  The source reads
`if not self._empty_set:` — the branch is taken exactly when the free set
is EMPTY, and its body immediately calls `self._empty_set.pop()`, which on
an empty set raises `KeyError`; the `else` branch (free set non-empty)
appends a new slot `self._allocation[idx] = len(self._data);
self._data.append(value)` instead of reusing a free one. -/
def indexed_setitem (s : IndexedAlloc) (idx : Nat) (value : Int) :
    Except String IndexedAlloc :=
  if s.empty_set.isEmpty then
    .error "KeyError: pop from an empty set"
  else
    .ok { s with
          allocation := fun j => if j = idx then s.data.length else s.allocation j
          data := s.data ++ [some value] }

/-- `_indexed_store_allocation.__getitem__(idx)`:
`self._data[self._allocation[idx]]` (`none` when the index is out of the
value array's range). -/
def indexed_getitem (s : IndexedAlloc) (idx : Nat) : Option (Option Int) :=
  s.data.get? (s.allocation idx)

/-- `_indexed_store_allocation.__delitem__(idx)`: zero the index cell and,
when it was non-zero, clear the value-array slot and return it to the free
set. -/
def indexed_delitem (s : IndexedAlloc) (idx : Nat) : IndexedAlloc :=
  let deleted_idx := s.allocation idx
  let s1 := { s with allocation := fun j => if j = idx then 0 else s.allocation j }
  if deleted_idx ≠ 0 then
    { s1 with data := s1.data.set deleted_idx none
              empty_set := s1.empty_set ++ [deleted_idx] }
  else s1

/-! ## Helper lemmas about the packed-store primitives -/

theorem writeData_same (d : String → Nat → Nat → Int) (k : String)
    (a i : Nat) (v : Int) : writeData d k a i v k a i = v := by
  simp [writeData]

theorem writeData_other_key (d : String → Nat → Nat → Int) (k k' : String)
    (a i a' i' : Nat) (v : Int) (h : k' ≠ k) :
    writeData d k a i v k' a' i' = d k' a' i' := by
  simp [writeData, h]

theorem writeData_other_cell (d : String → Nat → Nat → Int) (k k' : String)
    (a i a' i' : Nat) (v : Int) (h : a' ≠ a ∨ i' ≠ i) :
    writeData d k a i v k' a' i' = d k' a' i' := by
  rcases h with h | h <;> simp [writeData, h]

theorem alookup_isSome_of_mem {α β : Type} [DecidableEq α] (k : α)
    (l : List (α × β)) (h : k ∈ l.map Prod.fst) :
    (alookup k l).isSome := by
  induction l with
  | nil => simp at h
  | cons hd t ih =>
    cases hd with
    | mk k' v =>
      by_cases hk : k' = k
      · simp [alookup, hk]
      · simp only [List.map_cons, List.mem_cons] at h
        rcases h with h | h
        · exact absurd h.symm hk
        · simp [alookup, hk, ih h]

theorem not_mem_of_alookup_eq_none {α β : Type} [DecidableEq α] (k : α)
    (l : List (α × β)) (h : alookup k l = none) : k ∉ l.map Prod.fst := by
  intro hmem
  have := alookup_isSome_of_mem k l hmem
  simp [h] at this

theorem applyValues_not_mem (fields : List (String × FieldSpec)) (a i : Nat)
    (v : List (String × Option Int)) (d : String → Nat → Nat → Int)
    (k : String) (a' i' : Nat) (h : k ∉ v.map Prod.fst) :
    applyValues fields a i v d k a' i' = d k a' i' := by
  induction v generalizing d with
  | nil => rfl
  | cons hd t ih =>
    cases hd with
    | mk k' ov =>
      simp only [List.map_cons, List.mem_cons] at h
      push_neg at h
      cases ov with
      | none => simpa [applyValues] using ih _ h.2
      | some x =>
        simp only [applyValues]
        rw [ih _ h.2]
        split
        · exact writeData_other_key d k' k a i a' i' x h.1
        · rfl

theorem applyValues_lookup_some (fields : List (String × FieldSpec))
    (a i : Nat) (v : List (String × Option Int))
    (d : String → Nat → Nat → Int) (k : String) (x : Int)
    (hnd : (v.map Prod.fst).Nodup) (hl : alookup k v = some (some x))
    (hf : (alookup k fields).isSome) :
    applyValues fields a i v d k a i = x := by
  induction v generalizing d with
  | nil => simp [alookup] at hl
  | cons hd t ih =>
    cases hd with
    | mk k' ov =>
      simp only [List.map_cons, List.nodup_cons] at hnd
      simp only [alookup] at hl
      by_cases hk : k' = k
      · subst hk
        simp at hl
        subst hl
        simp only [applyValues, hf, if_true]
        rw [applyValues_not_mem fields a i t _ k' a i hnd.1]
        exact writeData_same d k' a i x
      · simp only [if_neg hk] at hl
        cases ov with
        | none => exact ih _ hnd.2 hl
        | some y => exact ih _ hnd.2 hl

theorem applyValues_lookup_unset (fields : List (String × FieldSpec))
    (a i : Nat) (v : List (String × Option Int))
    (d : String → Nat → Nat → Int) (k : String)
    (hnd : (v.map Prod.fst).Nodup)
    (hl : alookup k v = none ∨ alookup k v = some none) :
    applyValues fields a i v d k a i = d k a i := by
  rcases hl with hl | hl
  · exact applyValues_not_mem fields a i v d k a i
      (not_mem_of_alookup_eq_none k v hl)
  · induction v generalizing d with
    | nil => simp [alookup] at hl
    | cons hd t ih =>
      cases hd with
      | mk k' ov =>
        simp only [List.map_cons, List.nodup_cons] at hnd
        simp only [alookup] at hl
        by_cases hk : k' = k
        · subst hk
          simp at hl
          subst hl
          simp only [applyValues]
          exact applyValues_not_mem fields a i t d k' a i hnd.1
        · simp only [if_neg hk] at hl
          cases ov with
          | none => exact ih _ hnd.2 hl
          | some y =>
            simp only [applyValues]
            rw [ih _ hnd.2 hl]
            split
            · exact writeData_other_key d k' k a i a i y
                (fun hx => hk hx.symm)
            · rfl

theorem applyValues_other_cell (fields : List (String × FieldSpec))
    (a i : Nat) (v : List (String × Option Int))
    (d : String → Nat → Nat → Int) (k : String) (a' i' : Nat)
    (h : a' ≠ a ∨ i' ≠ i) :
    applyValues fields a i v d k a' i' = d k a' i' := by
  induction v generalizing d with
  | nil => rfl
  | cons hd t ih =>
    cases hd with
    | mk k' ov =>
      cases ov with
      | none => simpa [applyValues] using ih _
      | some x =>
        simp only [applyValues]
        rw [ih _]
        split
        · exact writeData_other_cell d k' k a i a' i' x h
        · rfl

theorem resetFields_not_mem (fields : List (String × FieldSpec)) (a i : Nat)
    (d : String → Nat → Nat → Int) (k : String) (a' i' : Nat)
    (h : k ∉ fields.map Prod.fst) :
    resetFields fields a i d k a' i' = d k a' i' := by
  induction fields generalizing d with
  | nil => rfl
  | cons hd t ih =>
    cases hd with
    | mk k' f' =>
      simp only [List.map_cons, List.mem_cons] at h
      push_neg at h
      simp only [resetFields]
      rw [ih _ h.2]
      exact writeData_other_key d k' k a i a' i' f'.default h.1

theorem resetFields_lookup (fields : List (String × FieldSpec)) (a i : Nat)
    (d : String → Nat → Nat → Int) (k : String) (f : FieldSpec)
    (hnd : (fields.map Prod.fst).Nodup) (hl : alookup k fields = some f) :
    resetFields fields a i d k a i = f.default := by
  induction fields generalizing d with
  | nil => simp [alookup] at hl
  | cons hd t ih =>
    cases hd with
    | mk k' f' =>
      simp only [List.map_cons, List.nodup_cons] at hnd
      simp only [alookup] at hl
      by_cases hk : k' = k
      · subst hk
        simp at hl
        subst hl
        simp only [resetFields]
        rw [resetFields_not_mem t a i _ k' a i hnd.1]
        exact writeData_same d k' a i _
      · simp only [if_neg hk] at hl
        exact ih _ hnd.2 hl

theorem resetFields_other_cell (fields : List (String × FieldSpec))
    (a i : Nat) (d : String → Nat → Nat → Int) (k : String) (a' i' : Nat)
    (h : a' ≠ a ∨ i' ≠ i) :
    resetFields fields a i d k a' i' = d k a' i' := by
  induction fields generalizing d with
  | nil => rfl
  | cons hd t ih =>
    cases hd with
    | mk k' f' =>
      simp only [resetFields]
      rw [ih _]
      exact writeData_other_cell d k' k a i a' i' f'.default h

/-! ## Claims about the position-keyed store family -/

/-- C7: for a static position-keyed store, `next_index()` issues the
consecutive fresh counter values while fresh capacity remains (deletions
touch only the free queue, so they do not disturb the counter); once the
fresh counter is exhausted it pops the oldest entry of the FIFO free
queue; and when both sources are exhausted it fails with the overflow
error. -/
theorem C7_static_next_index :
    (∀ s : StoreState, s.remaining ≠ 0 → s.remaining ≤ s.size →
      next_index s = .ok (s.size - s.remaining,
        { s with remaining := s.remaining - 1,
                 last_index := ((s.size - s.remaining : Nat) : Int) }))
    ∧ (∀ (s : StaticStore) (idx : Nat),
        (sstore_delitem s idx).base.remaining = s.base.remaining
        ∧ (sstore_delitem s idx).base.empty_indices
            = s.base.empty_indices ++ [idx])
    ∧ (∀ (s : StoreState) (i : Nat) (t : List Nat), s.remaining = 0 →
        s.empty_indices = i :: t →
        next_index s = .ok (i, { s with empty_indices := t,
                                        last_index := (i : Int) }))
    ∧ (∀ s : StoreState, s.remaining = 0 → s.empty_indices = [] →
        next_index s = .error "No more space available.") := by
  refine ⟨?_, ?_, ?_, ?_⟩
  · intro s h1 h2
    have hv : s.size - (s.remaining - 1) - 1 = s.size - s.remaining := by omega
    simp [next_index, h1, hv]
  · intro s idx
    exact ⟨rfl, rfl⟩
  · intro s i t h1 h2
    simp [next_index, h1, h2]
  · intro s h1 h2
    simp [next_index, h1, h2]

/-- Witness for C7 at concrete states: a fresh store of size 3 issues
index 0; a store with exhausted counter and free queue `[5, 7]` pops 5; a
fully exhausted store overflows. -/
theorem C7_static_next_index_witness :
    ((store_init 3).remaining ≠ 0 ∧ (store_init 3).remaining ≤ (store_init 3).size
      ∧ next_index (store_init 3) = .ok (0,
          { store_init 3 with remaining := 2, last_index := (0 : Int) }))
    ∧ (next_index ⟨[5, 7], 3, 0, -1⟩ = .ok (5, ⟨[7], 3, 0, (5 : Int)⟩))
    ∧ (next_index ⟨[], 3, 0, -1⟩ = .error "No more space available.") := by
  refine ⟨⟨by decide, by decide, ?_⟩, ?_, ?_⟩
  · exact C7_static_next_index.1 (store_init 3) (by decide) (by decide)
  · exact C7_static_next_index.2.2.1 ⟨[5, 7], 3, 0, -1⟩ 5 [7] rfl rfl
  · exact C7_static_next_index.2.2.2 ⟨[], 3, 0, -1⟩ rfl rfl

/-- C9: static-store deletion only appends the index to the free queue;
every member's stored value at every position (the deleted position
included) and the rest of the bookkeeping state are unchanged. -/
theorem C9_static_delete_frame (s : StaticStore) (idx : Nat) :
    (∀ m i, (sstore_delitem s idx).members m i = s.members m i)
    ∧ (sstore_delitem s idx).base.empty_indices = s.base.empty_indices ++ [idx]
    ∧ (sstore_delitem s idx).base.size = s.base.size
    ∧ (sstore_delitem s idx).base.remaining = s.base.remaining
    ∧ (sstore_delitem s idx).base.last_index = s.base.last_index :=
  ⟨fun _ _ => rfl, rfl, rfl, rfl, rfl⟩

/-- A concrete static store used to instantiate claims: size 4, two
indices already issued, no deletions yet. -/
def witnessStatic : StaticStore :=
  { base := { empty_indices := [], size := 4, remaining := 2, last_index := 1 }
    members := fun _ _ => 0 }

/-- C10: while the fresh counter of a static store is not exhausted,
deleting an already-issued index leaves `__len__` unchanged, makes
`empty_indices()` still report only the never-issued tail range (omitting
the freed index), and leaves the store in a state that violates its own
`assertions()` check. -/
theorem C10_static_delete_breaks_assertions (s : StaticStore) (idx : Nat)
    (hrem : s.base.remaining ≠ 0) (hissued : idx < store_len s.base) :
    store_len (sstore_delitem s idx).base = store_len s.base
    ∧ store_empty_indices (sstore_delitem s idx).base
        = List.range' (store_len s.base) (s.base.size - store_len s.base)
    ∧ idx ∉ store_empty_indices (sstore_delitem s idx).base
    ∧ ¬ store_assertions (sstore_delitem s idx).base := by
  have hlen : store_len (sstore_delitem s idx).base = store_len s.base := by
    simp [store_len, sstore_delitem, hrem]
  have hrem' : (sstore_delitem s idx).base.remaining ≠ 0 := hrem
  have hei : store_empty_indices (sstore_delitem s idx).base
      = List.range' (store_len s.base) (s.base.size - store_len s.base) := by
    unfold store_empty_indices
    rw [if_pos hrem', hlen]
    rfl
  refine ⟨hlen, hei, ?_, ?_⟩
  · rw [hei]
    intro hmem
    rw [List.mem_range'] at hmem
    omega
  · intro hass
    have := hass.2 (by simpa [sstore_delitem] using hrem)
    simp [sstore_delitem] at this

/-- Witness for C10: deleting issued index 1 from the concrete store. -/
theorem C10_static_delete_breaks_assertions_witness :
    witnessStatic.base.remaining ≠ 0 ∧ 1 < store_len witnessStatic.base
    ∧ (store_len (sstore_delitem witnessStatic 1).base
        = store_len witnessStatic.base
      ∧ store_empty_indices (sstore_delitem witnessStatic 1).base
          = List.range' (store_len witnessStatic.base)
              (witnessStatic.base.size - store_len witnessStatic.base)
      ∧ 1 ∉ store_empty_indices (sstore_delitem witnessStatic 1).base
      ∧ ¬ store_assertions (sstore_delitem witnessStatic 1).base) :=
  ⟨by decide, by decide,
    C10_static_delete_breaks_assertions witnessStatic 1 (by decide) (by decide)⟩

/-- C8: in the dynamic store, a member write at any global position
(growing the block list as needed) followed by a read of the same member
at the same position returns the value written; reads resolve to block
`idx >>> log2size` at offset `idx &&& (2^log2size - 1)`. -/
theorem C8_dynamic_member_roundtrip :
    (∀ (stores : List DynBlock) (k : Nat) (fresh : DynBlock) (m : String)
        (idx : Nat) (val : Int),
      dyn_member_get (dyn_member_set stores k fresh m idx val) k m idx
        = some val)
    ∧ (∀ (stores : List DynBlock) (k : Nat) (m : String) (idx : Nat)
        (b : DynBlock), stores.get? (idx >>> k) = some b →
      dyn_member_get stores k m idx = some (b m (idx &&& idxMask k))) := by
  constructor
  · intro stores k fresh m idx val
    set si := idx >>> k with hsi
    by_cases hlt : stores.length ≤ si
    · have hlen : (stores ++ List.replicate (si + 1 - stores.length) fresh).length
          = si + 1 := by
        simp [List.length_append, List.length_replicate]
        omega
      simp only [dyn_member_get, dyn_member_set, ← hsi, if_pos hlt]
      rw [List.get?_eq_getElem?]
      rw [List.getElem?_set_self (by rw [hlen]; omega)]
      simp
    · have hlt' : si < stores.length := by omega
      simp only [dyn_member_get, dyn_member_set, ← hsi, if_neg hlt]
      rw [List.get?_eq_getElem?]
      rw [List.getElem?_set_self hlt']
      simp
  · intro stores k m idx b hb
    simp only [dyn_member_get]
    rw [hb]
    rfl


/-- A one-block dynamic store content used for witnesses. -/
def witnessBlock : DynBlock := fun _ _ => 7

/-- Witness for C8: with block size `2^4 = 16` a write at global position
17 reads back (the spec's concrete scenario), and a concrete in-range read
resolves through (block, offset). -/
theorem C8_dynamic_member_roundtrip_witness :
    dyn_member_get (dyn_member_set [] 4 (fun _ _ => 0) "a" 17 99) 4 "a" 17
      = some 99
    ∧ [witnessBlock].get? (3 >>> 2) = some witnessBlock
    ∧ dyn_member_get [witnessBlock] 2 "a" 3
        = some (witnessBlock "a" (3 &&& idxMask 2)) :=
  ⟨C8_dynamic_member_roundtrip.1 [] 4 (fun _ _ => 0) "a" 17 99, rfl,
    C8_dynamic_member_roundtrip.2 [witnessBlock] 2 "a" 3 witnessBlock rfl⟩

/-! ## Further helper lemmas for the packed store -/

theorem nextIdx_data (s : PackedStore) : (nextIdx s).2.data = s.data := by
  cases h : s.empty_list <;> simp [nextIdx, h]

theorem nextIdx_ref (s : PackedStore) :
    (nextIdx s).2.ref_to_idx = s.ref_to_idx := by
  cases h : s.empty_list <;> simp [nextIdx, h]

theorem nextIdx_fields (s : PackedStore) :
    (nextIdx s).2.fields = s.fields := by
  cases h : s.empty_list <;> simp [nextIdx, h]

theorem nextIdx_delta (s : PackedStore) :
    (nextIdx s).2.delta_size = s.delta_size := by
  cases h : s.empty_list <;> simp [nextIdx, h]

/-- In an invariant-satisfying state, the slot the generator hands out
next (recycled or fresh) is not the slot of any live reference. -/
theorem nextIdx_slotFree (s : PackedStore) (hinv : storeInv s) :
    slotFree s (nextIdx s).1 := by
  obtain ⟨-, -, hfree, -, -, hlt, -⟩ := hinv
  cases h : s.empty_list with
  | nil =>
    intro r hc
    simp only [nextIdx, h] at hc
    exact absurd (hlt r _ hc) (by omega)
  | cons fi rest =>
    simp only [nextIdx, h]
    exact hfree fi (by rw [h]; exact List.mem_cons_self fi rest)

theorem alookup_filter_self {β : Type} (r : Int) (l : List (Int × β)) :
    alookup r (l.filter (fun kv => kv.1 ≠ r)) = none := by
  induction l with
  | nil => rfl
  | cons hd t ih =>
    by_cases h : hd.1 = r
    · simpa [List.filter_cons, h] using ih
    · simpa [List.filter_cons, h, alookup] using ih

theorem alookup_filter_other {β : Type} (r r' : Int) (l : List (Int × β))
    (h : r' ≠ r) :
    alookup r' (l.filter (fun kv => kv.1 ≠ r)) = alookup r' l := by
  induction l with
  | nil => rfl
  | cons hd t ih =>
    cases hd with
    | mk k v =>
      by_cases hk : k = r
      · have hk2 : ¬ r = r' := fun hx => h hx.symm
        simpa [List.filter_cons, hk, alookup, hk2] using ih
      · by_cases hk' : k = r'
        · simp [List.filter_cons, hk, alookup, hk', h]
        · simpa [List.filter_cons, hk, alookup, hk'] using ih

/-- The invariant holds for a freshly constructed store (whenever the
schema keys, `__modified__` included, are duplicate-free). -/
theorem storeInv_mk (ufields : List (String × FieldSpec)) (d : Nat)
    (hnd : ((mkPackedStore ufields d).fields.map Prod.fst).Nodup) :
    storeInv (mkPackedStore ufields d) := by
  refine ⟨hnd, ?_, ?_, ?_, ?_, ?_, ?_⟩
  · intro k f hk fi _
    simp only [dataAt, mkPackedStore] at hk ⊢
    simp only [fieldDefault, hk]
  · intro fi hfi
    simp [mkPackedStore] at hfi
  · simp [mkPackedStore]
  · intro fi hfi
    simp [mkPackedStore] at hfi
  · intro r fi h
    simp [mkPackedStore, alookup] at h
  · intro r1 r2 fi h1 h2
    simp [mkPackedStore, alookup] at h1

/-- Unfolding of `packed_store.__setitem__` for a previously unseen
reference: a slot is taken from the generator, the mapping is recorded,
the dirty flag is initialised to false (0) and the supplied fields are
written. -/
theorem packed_setitem_unseen (s : PackedStore) (ref : Int)
    (v : List (String × Option Int)) (hr : ref ≠ 0)
    (hun : alookup ref s.ref_to_idx = none) :
    packed_setitem s ref v = .ok
      { (nextIdx s).2 with
        ref_to_idx := s.ref_to_idx ++ [(ref, (nextIdx s).1)]
        data := applyValues s.fields ((nextIdx s).1 >>> s.delta_size)
          ((nextIdx s).1 &&& idxMask s.delta_size) v
          (writeData s.data "__modified__"
            ((nextIdx s).1 >>> s.delta_size)
            ((nextIdx s).1 &&& idxMask s.delta_size) 0) } := by
  cases h : s.empty_list <;>
    simp [packed_setitem, hr, hun, nextIdx, h]

/-- Unfolding of `packed_store.__setitem__` for a live reference: no new
slot, the dirty flag is set true (1) and the supplied fields are
written. -/
theorem packed_setitem_seen (s : PackedStore) (ref : Int) (fi : Nat)
    (v : List (String × Option Int)) (hr : ref ≠ 0)
    (hse : alookup ref s.ref_to_idx = some fi) :
    packed_setitem s ref v = .ok
      { s with
        data := applyValues s.fields (fi >>> s.delta_size)
          (fi &&& idxMask s.delta_size) v
          (writeData s.data "__modified__" (fi >>> s.delta_size)
            (fi &&& idxMask s.delta_size) 1) } := by
  simp [packed_setitem, hr, hse]

/-! ## Claims about the indirection store -/

/-- Any write through `_indexed_store_allocation.__setitem__` while the
free set is empty raises (`set.pop()` on the empty set). -/
theorem indexed_setitem_raises_on_empty (s : IndexedAlloc) (idx : Nat)
    (value : Int) (h : s.empty_set = []) :
    indexed_setitem s idx value = .error "KeyError: pop from an empty set" := by
  simp [indexed_setitem, h]

/-- Any write through `_indexed_store_allocation.__setitem__` that does
not raise appends to the shared value array — a free slot is never
reused. -/
theorem indexed_setitem_always_appends (s : IndexedAlloc) (idx : Nat)
    (value : Int) (s' : IndexedAlloc)
    (h : indexed_setitem s idx value = .ok s') :
    s'.data = s.data ++ [some value] := by
  by_cases he : s.empty_set.isEmpty
  · simp [indexed_setitem, he] at h
  · simp only [indexed_setitem, he, Bool.false_eq_true, if_false] at h
    injection h with h
    rw [← h]

/-- Witness that the two lemmas above are not vacuous: the append branch
fires on a state with a non-empty free set. -/
theorem indexed_setitem_always_appends_witness :
    (indexed_setitem (⟨[none, none], [1], fun _ => 0⟩ : IndexedAlloc) 0 42).isOk
    ∧ [none, none, some (42 : Int)] = [none, none] ++ [some 42] := by
  constructor
  · rfl
  · rfl

/-- C2: the first write to a slot's indirect field on a fresh indirection
store raises `KeyError` — the source's `if not self._empty_set:` branch is
taken exactly when the free set is empty and immediately pops from that
empty set.  (The claim's set/delete cycle therefore fails on its very
first step, refuting "never raises".) -/
theorem C2_indexed_store_first_write_raises :
    indexed_setitem indexed_alloc_init 0 42
      = .error "KeyError: pop from an empty set" := rfl

/-! ## Claims about the reference-keyed packed store -/

/-- C3: reference 0 is rejected by every keyed operation of the packed
store with the reserved-key error, `contains(0)` is false, and neither a
create-or-update nor a delete can make ref 0 occupy a slot. -/
theorem C3_reserved_ref_zero :
    (∀ (s : PackedStore) (v : List (String × Option Int)),
      packed_setitem s 0 v = .error "Cannot set the 0 (null) reference.")
    ∧ (∀ s : PackedStore,
        packed_getitem s 0 = .error "Cannot read the 0 (null) reference.")
    ∧ (∀ s : PackedStore,
        packed_delitem s 0 = .error "Cannot delete the 0 (null) reference.")
    ∧ (∀ s : PackedStore, packed_contains s 0 = false)
    ∧ (∀ (s s' : PackedStore) (r : Int) (v : List (String × Option Int)),
        alookup (0 : Int) s.ref_to_idx = none → packed_setitem s r v = .ok s' →
        alookup (0 : Int) s'.ref_to_idx = none)
    ∧ (∀ (s s' : PackedStore) (r : Int),
        alookup (0 : Int) s.ref_to_idx = none → packed_delitem s r = .ok s' →
        alookup (0 : Int) s'.ref_to_idx = none) := by
  refine ⟨fun s v => rfl, fun s => rfl, fun s => rfl, fun s => rfl, ?_, ?_⟩
  · intro s s' r v h0 hok
    by_cases hr : r = 0
    · subst hr
      simp [packed_setitem] at hok
    · cases hse : alookup r s.ref_to_idx with
      | none =>
        rw [packed_setitem_unseen s r v hr hse] at hok
        injection hok with h
        rw [← h]
        exact (alookup_append_left (0 : Int) r (nextIdx s).1 s.ref_to_idx
          hr).trans h0
      | some fi =>
        rw [packed_setitem_seen s r fi v hr hse] at hok
        injection hok with h
        rw [← h]
        exact h0
  · intro s s' r h0 hok
    by_cases hr : r = 0
    · subst hr
      simp [packed_delitem] at hok
    · cases hse : alookup r s.ref_to_idx with
      | none => simp [packed_delitem, hr, hse] at hok
      | some fi =>
        simp only [packed_delitem, hr, if_false, hse] at hok
        injection hok with h
        rw [← h]
        exact (alookup_filter_other r (0 : Int) s.ref_to_idx
          (fun hx => hr hx.symm)).trans h0

/-- A small concrete schema: a writable field `x` (default 3) and a
read-only field `ro` (default 5). -/
def demoFields : List (String × FieldSpec) :=
  [("x", { default := 3, read_only := false }),
   ("ro", { default := 5, read_only := true })]

/-- A freshly constructed packed store over `demoFields`. -/
def demoStore : PackedStore := mkPackedStore demoFields 4

/-- `demoStore` after `create_or_update(1, \x7bx: 7\x7d)`. -/
def demoAfter : PackedStore :=
  match packed_setitem demoStore 1 [("x", some 7)] with
  | .ok s' => s'
  | .error _ => demoStore

/-- `demoAfter` after `delete(1)`. -/
def demoDeleted : PackedStore :=
  match packed_delitem demoAfter 1 with
  | .ok s' => s'
  | .error _ => demoAfter

/-- The entry view `read(1)` on `demoAfter`. -/
def demoEntry : PackedEntry :=
  match packed_getitem demoAfter 1 with
  | .ok e => e
  | .error _ => ⟨0, 0, []⟩

/-- `demoAfter` after a non-debug write of 9 to the read-only field `ro`
through the view. -/
def demoNoDebug : PackedStore :=
  match entry_setitem false demoAfter demoEntry "ro" 9 with
  | .ok s' => s'
  | .error _ => demoAfter

/-- Witness for C3 at the concrete store: all four reserved-key facts, and
both preservation facts along `create_or_update(1, ...)` and
`delete(1)`. -/
theorem C3_reserved_ref_zero_witness :
    alookup (0 : Int) demoStore.ref_to_idx = none
    ∧ packed_setitem demoStore 1 [("x", some 7)] = .ok demoAfter
    ∧ packed_delitem demoAfter 1 = .ok demoDeleted
    ∧ packed_setitem demoStore 0 [("x", some 7)]
        = .error "Cannot set the 0 (null) reference."
    ∧ packed_getitem demoStore 0
        = .error "Cannot read the 0 (null) reference."
    ∧ packed_delitem demoStore 0
        = .error "Cannot delete the 0 (null) reference."
    ∧ packed_contains demoStore 0 = false
    ∧ alookup (0 : Int) demoAfter.ref_to_idx = none
    ∧ alookup (0 : Int) demoDeleted.ref_to_idx = none :=
  ⟨rfl, rfl, rfl,
   C3_reserved_ref_zero.1 demoStore [("x", some 7)],
   C3_reserved_ref_zero.2.1 demoStore,
   C3_reserved_ref_zero.2.2.1 demoStore,
   C3_reserved_ref_zero.2.2.2.1 demoStore,
   C3_reserved_ref_zero.2.2.2.2.1 demoStore demoAfter 1 [("x", some 7)] rfl rfl,
   C3_reserved_ref_zero.2.2.2.2.2 demoAfter demoDeleted 1 rfl rfl⟩

/-- C6 counterexample: with Python's debug assertions disabled
(`python -O`, `__debug__ == False`) a write to the read-only field `ro`
through a view returned by `read` does NOT fail — it succeeds and changes
the stored value from its default 5 to 9.  The read-only check sits
inside `if __debug__:`, so it is not "always enforced, not only in a
debug mode" as the claim states. -/
theorem C6_counterexample_nondebug_write_succeeds :
    readOnlyField demoAfter.fields "ro" = true
    ∧ packed_getitem demoAfter 1 = .ok demoEntry
    ∧ entry_setitem false demoAfter demoEntry "ro" 9 = .ok demoNoDebug
    ∧ demoAfter.data "ro" demoEntry.allocation demoEntry.idx = 5
    ∧ demoNoDebug.data "ro" demoEntry.allocation demoEntry.idx = 9 :=
  ⟨rfl, rfl, rfl, rfl, rfl⟩

/-- C6 (amended): when debug assertions are enabled (Python's default
mode), setting a read-only field through an entry view fails with the
read-only-violation error before anything is written, for every store,
every view and every read-only field of the schema. -/
theorem C6_readonly_enforced_in_debug (s : PackedStore) (e : PackedEntry)
    (key : String) (v : Int) (f : FieldSpec)
    (hf : alookup key s.fields = some f) (hro : f.read_only = true) :
    entry_setitem true s e key v = .error "Writing to read-only field." := by
  simp [entry_setitem, hf, readOnlyField, hro]

/-- Witness for the amended C6 at the concrete store. -/
theorem C6_readonly_enforced_in_debug_witness :
    alookup "ro" demoAfter.fields
        = some { default := 5, read_only := true }
    ∧ FieldSpec.read_only { default := 5, read_only := true } = true
    ∧ entry_setitem true demoAfter demoEntry "ro" 9
        = .error "Writing to read-only field." :=
  ⟨rfl, rfl,
   C6_readonly_enforced_in_debug demoAfter demoEntry "ro" 9 _ rfl rfl⟩

/-- C1: creating a previously unseen reference and reading it back
returns, for every field supplied with a non-None value, exactly that
value, and for every declared field omitted or supplied as None ("unset"),
the field's schema default.  Stated over any invariant-satisfying store
state (free slots hold defaults — true initially and maintained by the
operations), for a value mapping over the declared fields. -/
theorem C1_create_read_roundtrip (s : PackedStore) (r : Int)
    (v : List (String × Option Int))
    (hr : r ≠ 0) (hun : alookup r s.ref_to_idx = none) (hinv : storeInv s)
    (hnd : (v.map Prod.fst).Nodup)
    (hdecl : ∀ k ∈ v.map Prod.fst,
      (alookup k s.fields).isSome ∧ k ≠ "__modified__") :
    ∃ (s' : PackedStore) (e : PackedEntry),
      packed_setitem s r v = .ok s'
      ∧ packed_getitem s' r = .ok e
      ∧ (∀ k x, alookup k v = some (some x) → entry_getitem s' e k = .ok x)
      ∧ (∀ k f, alookup k s.fields = some f → k ≠ "__modified__" →
          (alookup k v = none ∨ alookup k v = some none) →
          entry_getitem s' e k = .ok f.default) := by
  refine ⟨_, ⟨(nextIdx s).1 >>> s.delta_size,
      (nextIdx s).1 &&& idxMask s.delta_size, s.fields⟩,
    packed_setitem_unseen s r v hr hun, ?_, ?_, ?_⟩
  · have hlook : alookup r (s.ref_to_idx ++ [(r, (nextIdx s).1)])
        = some (nextIdx s).1 :=
      alookup_append_right r (nextIdx s).1 s.ref_to_idx hun
    simp [packed_getitem, hr, hlook, nextIdx_delta, nextIdx_fields]
  · intro k x hl
    have hmem := mem_of_alookup_eq_some k (some x) v hl
    obtain ⟨hkS, hkM⟩ := hdecl k hmem
    have h1 : ¬ (alookup k s.fields).isNone = true := by
      rw [Option.isNone_iff_eq_none]
      intro hx
      rw [hx] at hkS
      simp at hkS
    simp only [entry_getitem, h1, if_false]
    exact congrArg Except.ok (applyValues_lookup_some s.fields
      ((nextIdx s).1 >>> s.delta_size) ((nextIdx s).1 &&& idxMask s.delta_size)
      v _ k x hnd hl hkS)
  · intro k f hk hkM hunset
    have h1 : ¬ (alookup k s.fields).isNone = true := by
      rw [Option.isNone_iff_eq_none]
      intro hx
      rw [hx] at hk
      cases hk
    simp only [entry_getitem, h1, if_false]
    refine congrArg Except.ok ?_
    calc applyValues s.fields ((nextIdx s).1 >>> s.delta_size)
          ((nextIdx s).1 &&& idxMask s.delta_size) v
          (writeData s.data "__modified__" ((nextIdx s).1 >>> s.delta_size)
            ((nextIdx s).1 &&& idxMask s.delta_size) 0) k
          ((nextIdx s).1 >>> s.delta_size) ((nextIdx s).1 &&& idxMask s.delta_size)
        = writeData s.data "__modified__" ((nextIdx s).1 >>> s.delta_size)
            ((nextIdx s).1 &&& idxMask s.delta_size) 0 k
            ((nextIdx s).1 >>> s.delta_size) ((nextIdx s).1 &&& idxMask s.delta_size) :=
          applyValues_lookup_unset s.fields _ _ v _ k hnd hunset
      _ = s.data k ((nextIdx s).1 >>> s.delta_size)
            ((nextIdx s).1 &&& idxMask s.delta_size) :=
          writeData_other_key s.data "__modified__" k _ _ _ _ 0 hkM
      _ = f.default :=
          hinv.2.1 k f hk (nextIdx s).1 (nextIdx_slotFree s hinv)

/-- Witness for C1: on the fresh demo store, creating ref 1 with
`x = 7` and reading it back yields 7 for `x` and the defaults for the
omitted fields. -/
theorem C1_create_read_roundtrip_witness :
    alookup (1 : Int) demoStore.ref_to_idx = none
    ∧ storeInv demoStore
    ∧ (∃ (s' : PackedStore) (e : PackedEntry),
        packed_setitem demoStore 1 [("x", some 7)] = .ok s'
        ∧ packed_getitem s' 1 = .ok e
        ∧ (∀ k x, alookup k [("x", some (7 : Int))] = some (some x) →
            entry_getitem s' e k = .ok x)
        ∧ (∀ k f, alookup k demoStore.fields = some f → k ≠ "__modified__" →
            (alookup k [("x", some (7 : Int))] = none
              ∨ alookup k [("x", some (7 : Int))] = some none) →
            entry_getitem s' e k = .ok f.default)) :=
  ⟨rfl, storeInv_mk demoFields 4 (by decide),
   C1_create_read_roundtrip demoStore 1 [("x", some 7)] (by decide) rfl
     (storeInv_mk demoFields 4 (by decide)) (by decide) (by decide)⟩

/-- C4: deleting a live reference releases its slot to the back of the
free list and resets every field's storage (the `__modified__` dirty
column included, it being one of `self.fields`) to the schema default;
with exactly one free slot, the next create of an unseen reference is
assigned exactly that freed slot and observes schema defaults for every
declared field it does not set; deleting an unseen reference fails with
the not-found error; and the generator always serves the oldest free
slot before minting fresh indices. -/
theorem C4_delete_recycles_and_resets :
    (∀ (s : PackedStore) (r : Int) (fi : Nat), r ≠ 0 →
      alookup r s.ref_to_idx = some fi →
      ∃ s', packed_delitem s r = .ok s'
        ∧ s'.empty_list = s.empty_list ++ [fi]
        ∧ alookup r s'.ref_to_idx = none
        ∧ (∀ k f, (s.fields.map Prod.fst).Nodup →
            alookup k s.fields = some f → dataAt s' k fi = f.default))
    ∧ (∀ (s s' : PackedStore) (r r' : Int) (fi : Nat)
        (v : List (String × Option Int)),
        r ≠ 0 → r' ≠ 0 → s.empty_list = [] →
        alookup r s.ref_to_idx = some fi →
        packed_delitem s r = .ok s' →
        alookup r' s'.ref_to_idx = none →
        (s.fields.map Prod.fst).Nodup →
        (v.map Prod.fst).Nodup →
        (∀ k ∈ v.map Prod.fst, k ≠ "__modified__") →
        ∃ s'', packed_setitem s' r' v = .ok s''
          ∧ alookup r' s''.ref_to_idx = some fi
          ∧ (∀ k f, alookup k s.fields = some f → k ≠ "__modified__" →
              (alookup k v = none ∨ alookup k v = some none) →
              dataAt s'' k fi = f.default))
    ∧ (∀ (s : PackedStore) (r : Int), r ≠ 0 →
        alookup r s.ref_to_idx = none →
        packed_delitem s r = .error "KeyError: ref is not in the store.")
    ∧ (∀ (s : PackedStore) (j : Nat) (t : List Nat),
        s.empty_list = j :: t → (nextIdx s).1 = j) := by
  refine ⟨?_, ?_, ?_, ?_⟩
  · intro s r fi hr hse
    refine ⟨{ s with
        ref_to_idx := s.ref_to_idx.filter (fun kv => kv.1 ≠ r)
        empty_list := s.empty_list ++ [fi]
        data := resetFields s.fields (fi >>> s.delta_size)
          (fi &&& idxMask s.delta_size) s.data }, ?_, rfl, ?_, ?_⟩
    · simp only [packed_delitem, hr, if_false, hse]
    · exact alookup_filter_self r s.ref_to_idx
    · intro k f hndf hk
      exact resetFields_lookup s.fields _ _ s.data k f hndf hk
  · intro s s' r r' fi v hr hr' hel hse hdel hun' hndf hndv hnoM
    have hdel' := hdel
    simp only [packed_delitem, hr, if_false, hse] at hdel'
    injection hdel' with hR
    have hel' : s'.empty_list = [fi] := by rw [← hR, hel]; rfl
    have hfields' : s'.fields = s.fields := by rw [← hR]
    have hdelta' : s'.delta_size = s.delta_size := by rw [← hR]
    have hdata' : s'.data = resetFields s.fields (fi >>> s.delta_size)
        (fi &&& idxMask s.delta_size) s.data := by rw [← hR]
    have hnx1 : (nextIdx s').1 = fi := by simp [nextIdx, hel']
    refine ⟨_, packed_setitem_unseen s' r' v hr' hun', ?_, ?_⟩
    · show alookup r' (s'.ref_to_idx ++ [(r', (nextIdx s').1)]) = some fi
      rw [hnx1]
      exact alookup_append_right r' fi s'.ref_to_idx hun'
    · intro k f hk hkM hunset
      have hkS' : alookup k s'.fields = some f := by rw [hfields']; exact hk
      show dataAt
        { (nextIdx s').2 with
          ref_to_idx := s'.ref_to_idx ++ [(r', (nextIdx s').1)]
          data := applyValues s'.fields ((nextIdx s').1 >>> s'.delta_size)
            ((nextIdx s').1 &&& idxMask s'.delta_size) v
            (writeData s'.data "__modified__"
              ((nextIdx s').1 >>> s'.delta_size)
              ((nextIdx s').1 &&& idxMask s'.delta_size) 0) } k fi = f.default
      have hd2 : ((nextIdx s').2).delta_size = s.delta_size := by
        rw [nextIdx_delta, hdelta']
      simp only [dataAt, hd2, hnx1, hdelta', hfields']
      calc applyValues s.fields (fi >>> s.delta_size)
            (fi &&& idxMask s.delta_size) v
            (writeData s'.data "__modified__" (fi >>> s.delta_size)
              (fi &&& idxMask s.delta_size) 0) k
            (fi >>> s.delta_size) (fi &&& idxMask s.delta_size)
          = writeData s'.data "__modified__" (fi >>> s.delta_size)
              (fi &&& idxMask s.delta_size) 0 k
              (fi >>> s.delta_size) (fi &&& idxMask s.delta_size) :=
            applyValues_lookup_unset s.fields _ _ v _ k hndv hunset
        _ = s'.data k (fi >>> s.delta_size) (fi &&& idxMask s.delta_size) :=
            writeData_other_key s'.data "__modified__" k _ _ _ _ 0 hkM
        _ = f.default := by
            rw [hdata']
            exact resetFields_lookup s.fields _ _ s.data k f hndf hk
  · intro s r hr hun
    simp [packed_delitem, hr, hun]
  · intro s j t h
    simp [nextIdx, h]

/-- Witness for C4 on the demo store: delete live ref 1 (slot 1), recreate
as ref 2 on the recycled slot, observe defaults; delete of unseen ref 3
fails; the generator pops the freed slot first. -/
theorem C4_delete_recycles_and_resets_witness :
    alookup (1 : Int) demoAfter.ref_to_idx = some 1
    ∧ demoAfter.empty_list = []
    ∧ packed_delitem demoAfter 1 = .ok demoDeleted
    ∧ alookup (2 : Int) demoDeleted.ref_to_idx = none
    ∧ (∃ s', packed_delitem demoAfter 1 = .ok s'
        ∧ s'.empty_list = demoAfter.empty_list ++ [1]
        ∧ alookup (1 : Int) s'.ref_to_idx = none
        ∧ (∀ k f, (demoAfter.fields.map Prod.fst).Nodup →
            alookup k demoAfter.fields = some f → dataAt s' k 1 = f.default))
    ∧ (∃ s'', packed_setitem demoDeleted 2 [("x", some 9)] = .ok s''
        ∧ alookup (2 : Int) s''.ref_to_idx = some 1
        ∧ (∀ k f, alookup k demoAfter.fields = some f → k ≠ "__modified__" →
            (alookup k [("x", some (9 : Int))] = none
              ∨ alookup k [("x", some (9 : Int))] = some none) →
            dataAt s'' k 1 = f.default))
    ∧ packed_delitem demoStore 3 = .error "KeyError: ref is not in the store."
    ∧ (nextIdx demoDeleted).1 = 1 :=
  ⟨rfl, rfl, rfl, rfl,
   C4_delete_recycles_and_resets.1 demoAfter 1 1 (by decide) rfl,
   C4_delete_recycles_and_resets.2.1 demoAfter demoDeleted 1 2 1
     [("x", some 9)] (by decide) (by decide) rfl rfl rfl rfl
     (by decide) (by decide) (by decide),
   C4_delete_recycles_and_resets.2.2.1 demoStore 3 (by decide) rfl,
   C4_delete_recycles_and_resets.2.2.2 demoDeleted 1 [] rfl⟩

/-- An association-list lookup hit exhibits a member pair. -/
theorem pair_mem_of_alookup {α β : Type} [DecidableEq α] (k : α) (v : β)
    (l : List (α × β)) (h : alookup k l = some v) : (k, v) ∈ l := by
  induction l with
  | nil => simp [alookup] at h
  | cons hd t ih =>
    cases hd with
    | mk k' v' =>
      simp only [alookup] at h
      by_cases hk : k' = k
      · subst hk
        simp at h
        subst h
        exact List.mem_cons_self _ _
      · simp only [if_neg hk] at h
        exact List.mem_cons_of_mem _ (ih h)

/-- Membership characterisation of the dirty iterator: the yielded views
are exactly the (block, offset, field-set) triples of live slots whose
`__modified__` cell is truthy. -/
theorem mem_packed_modified (s : PackedStore) (af : Bool) (e : PackedEntry) :
    e ∈ packed_modified s af ↔ ∃ fj ∈ s.ref_to_idx.map Prod.snd,
      s.data "__modified__" (fj >>> s.delta_size) (fj &&& idxMask s.delta_size) ≠ 0
      ∧ e = ⟨fj >>> s.delta_size, fj &&& idxMask s.delta_size,
          if af then s.fields else writableFields s.fields⟩ := by
  simp only [packed_modified, List.mem_filterMap]
  constructor
  · rintro ⟨fj, hmem, hsome⟩
    by_cases hflag : s.data "__modified__" (fj >>> s.delta_size)
        (fj &&& idxMask s.delta_size) ≠ 0
    · rw [if_pos hflag] at hsome
      exact ⟨fj, hmem, hflag, (Option.some.inj hsome).symm⟩
    · rw [if_neg hflag] at hsome
      cases hsome
  · rintro ⟨fj, hmem, hflag, he⟩
    exact ⟨fj, hmem, by rw [if_pos hflag, he]⟩

/-- C5: the first create of an unseen reference initialises the slot's
dirty flag to false (0) — so the freshly created slot is not yielded by
the dirty iterator; every subsequent create-or-update of the same live
reference, and every successful field write through an entry view, sets
the flag to true (1); the dirty iterator yields a view for a live slot
exactly when the slot's flag is truthy; and with `all_fields = false`
every yielded view carries only the writable fields. -/
theorem C5_dirty_flag_and_iterator :
    (∀ (s : PackedStore) (r : Int) (v : List (String × Option Int))
        (s' : PackedStore),
      r ≠ 0 → alookup r s.ref_to_idx = none →
      (∀ k ∈ v.map Prod.fst, k ≠ "__modified__") →
      packed_setitem s r v = .ok s' →
      ∃ fi, alookup r s'.ref_to_idx = some fi
        ∧ dataAt s' "__modified__" fi = 0
        ∧ ∀ (af : Bool) (e : PackedEntry), e ∈ packed_modified s' af →
            ¬ (e.allocation = fi >>> s'.delta_size
              ∧ e.idx = fi &&& idxMask s'.delta_size))
    ∧ (∀ (s : PackedStore) (r : Int) (fi : Nat)
        (v : List (String × Option Int)) (s' : PackedStore),
        r ≠ 0 → alookup r s.ref_to_idx = some fi →
        (∀ k ∈ v.map Prod.fst, k ≠ "__modified__") →
        packed_setitem s r v = .ok s' →
        dataAt s' "__modified__" fi = 1)
    ∧ (∀ (debug : Bool) (s : PackedStore) (e : PackedEntry) (key : String)
        (x : Int) (s' : PackedStore),
        entry_setitem debug s e key x = .ok s' →
        s'.data "__modified__" e.allocation e.idx = 1)
    ∧ (∀ (s : PackedStore) (af : Bool) (r : Int) (fi : Nat),
        alookup r s.ref_to_idx = some fi →
        ((∃ e ∈ packed_modified s af, e.allocation = fi >>> s.delta_size
            ∧ e.idx = fi &&& idxMask s.delta_size)
          ↔ dataAt s "__modified__" fi ≠ 0))
    ∧ (∀ (s : PackedStore) (e : PackedEntry), e ∈ packed_modified s false →
        e.fields = writableFields s.fields) := by
  have hnotmem : ∀ (v : List (String × Option Int)),
      (∀ k ∈ v.map Prod.fst, k ≠ "__modified__") →
      "__modified__" ∉ v.map Prod.fst := by
    intro v h hmem
    exact h _ hmem rfl
  refine ⟨?_, ?_, ?_, ?_, ?_⟩
  · intro s r v s' hr hun hnoM hok
    rw [packed_setitem_unseen s r v hr hun] at hok
    injection hok with hR
    refine ⟨(nextIdx s).1, ?_, ?_, ?_⟩
    · rw [← hR]
      show alookup r (s.ref_to_idx ++ [(r, (nextIdx s).1)]) = some (nextIdx s).1
      exact alookup_append_right r (nextIdx s).1 s.ref_to_idx hun
    · rw [← hR]
      show applyValues s.fields ((nextIdx s).1 >>> s.delta_size)
          ((nextIdx s).1 &&& idxMask s.delta_size) v
          (writeData s.data "__modified__" ((nextIdx s).1 >>> s.delta_size)
            ((nextIdx s).1 &&& idxMask s.delta_size) 0) "__modified__"
          ((nextIdx s).1 >>> (nextIdx s).2.delta_size)
          ((nextIdx s).1 &&& idxMask (nextIdx s).2.delta_size) = 0
      rw [nextIdx_delta]
      rw [applyValues_not_mem s.fields _ _ v _ "__modified__" _ _
        (hnotmem v hnoM)]
      exact writeData_same s.data "__modified__" _ _ 0
    · intro af e hmem ⟨hea, hei⟩
      rw [mem_packed_modified] at hmem
      obtain ⟨fj, hfj, hflag, he⟩ := hmem
      subst he
      simp only at hea hei
      have hfj1 : fj = (nextIdx s).1 :=
        block_offset_inj s'.delta_size fj (nextIdx s).1 hea hei
      rw [hfj1] at hflag
      apply hflag
      have h0 : dataAt s' "__modified__" (nextIdx s).1 = 0 := by
        rw [← hR]
        show applyValues s.fields ((nextIdx s).1 >>> s.delta_size)
            ((nextIdx s).1 &&& idxMask s.delta_size) v
            (writeData s.data "__modified__" ((nextIdx s).1 >>> s.delta_size)
              ((nextIdx s).1 &&& idxMask s.delta_size) 0) "__modified__"
            ((nextIdx s).1 >>> (nextIdx s).2.delta_size)
            ((nextIdx s).1 &&& idxMask (nextIdx s).2.delta_size) = 0
        rw [nextIdx_delta]
        rw [applyValues_not_mem s.fields _ _ v _ "__modified__" _ _
          (hnotmem v hnoM)]
        exact writeData_same s.data "__modified__" _ _ 0
      exact h0
  · intro s r fi v s' hr hse hnoM hok
    rw [packed_setitem_seen s r fi v hr hse] at hok
    injection hok with hR
    rw [← hR]
    show applyValues s.fields (fi >>> s.delta_size)
        (fi &&& idxMask s.delta_size) v
        (writeData s.data "__modified__" (fi >>> s.delta_size)
          (fi &&& idxMask s.delta_size) 1) "__modified__"
        (fi >>> s.delta_size) (fi &&& idxMask s.delta_size) = 1
    rw [applyValues_not_mem s.fields _ _ v _ "__modified__" _ _
      (hnotmem v hnoM)]
    exact writeData_same s.data "__modified__" _ _ 1
  · intro debug s e key x s' hok
    by_cases h1 : (alookup key s.fields).isNone
    · simp [entry_setitem, h1] at hok
    · by_cases h2 : (debug && readOnlyField s.fields key) = true
      · simp [entry_setitem, h1, h2] at hok
      · simp only [entry_setitem, h1, Bool.false_eq_true, if_false, h2] at hok
        injection hok with hR
        rw [← hR]
        exact writeData_same _ "__modified__" _ _ 1
  · intro s af r fi hse
    constructor
    · rintro ⟨e, hmem, hea, hei⟩
      rw [mem_packed_modified] at hmem
      obtain ⟨fj, hfj, hflag, he⟩ := hmem
      subst he
      simp only at hea hei
      have : fj = fi := block_offset_inj s.delta_size fj fi hea hei
      subst this
      exact hflag
    · intro hflag
      have hpair := pair_mem_of_alookup r fi s.ref_to_idx hse
      refine ⟨⟨fi >>> s.delta_size, fi &&& idxMask s.delta_size,
          if af then s.fields else writableFields s.fields⟩, ?_, rfl, rfl⟩
      rw [mem_packed_modified]
      exact ⟨fi, List.mem_map_of_mem Prod.snd hpair, hflag, rfl⟩
  · intro s e hmem
    rw [mem_packed_modified] at hmem
    obtain ⟨fj, hfj, hflag, he⟩ := hmem
    subst he
    rfl

/-- `demoAfter` after a second `create_or_update(1, \x7bx: 8\x7d)` (an
update of the live reference). -/
def demoUpdated : PackedStore :=
  match packed_setitem demoAfter 1 [("x", some 8)] with
  | .ok s' => s'
  | .error _ => demoAfter

/-- `demoAfter` after a debug-mode view write `entry[x] = 2`. -/
def demoEntrySet : PackedStore :=
  match entry_setitem true demoAfter demoEntry "x" 2 with
  | .ok s' => s'
  | .error _ => demoAfter

/-- The view the dirty iterator yields for slot 1 of `demoUpdated` with
`all_fields = false`. -/
def demoDirtyView : PackedEntry := ⟨0, 1, writableFields demoUpdated.fields⟩

/-- Witness for C5 on the demo store: fresh creation leaves the flag 0
and the slot unyielded; the second update and a view write set it to 1;
the iterator-membership equivalence holds at the live slot; and the
yielded view carries exactly the writable fields. -/
theorem C5_dirty_flag_and_iterator_witness :
    packed_setitem demoStore 1 [("x", some 7)] = .ok demoAfter
    ∧ (∃ fi, alookup (1 : Int) demoAfter.ref_to_idx = some fi
        ∧ dataAt demoAfter "__modified__" fi = 0
        ∧ ∀ (af : Bool) (e : PackedEntry), e ∈ packed_modified demoAfter af →
            ¬ (e.allocation = fi >>> demoAfter.delta_size
              ∧ e.idx = fi &&& idxMask demoAfter.delta_size))
    ∧ packed_setitem demoAfter 1 [("x", some 8)] = .ok demoUpdated
    ∧ dataAt demoUpdated "__modified__" 1 = 1
    ∧ entry_setitem true demoAfter demoEntry "x" 2 = .ok demoEntrySet
    ∧ demoEntrySet.data "__modified__" demoEntry.allocation demoEntry.idx = 1
    ∧ ((∃ e ∈ packed_modified demoUpdated false,
          e.allocation = 1 >>> demoUpdated.delta_size
          ∧ e.idx = 1 &&& idxMask demoUpdated.delta_size)
        ↔ dataAt demoUpdated "__modified__" 1 ≠ 0)
    ∧ demoDirtyView ∈ packed_modified demoUpdated false
    ∧ demoDirtyView.fields = writableFields demoUpdated.fields :=
  ⟨rfl,
   C5_dirty_flag_and_iterator.1 demoStore 1 [("x", some 7)] demoAfter
     (by decide) rfl (by decide) rfl,
   rfl,
   C5_dirty_flag_and_iterator.2.1 demoAfter 1 1 [("x", some 8)] demoUpdated
     (by decide) rfl (by decide) rfl,
   rfl,
   C5_dirty_flag_and_iterator.2.2.1 true demoAfter demoEntry "x" 2
     demoEntrySet rfl,
   C5_dirty_flag_and_iterator.2.2.2.1 demoUpdated false 1 1 rfl,
   by decide,
   C5_dirty_flag_and_iterator.2.2.2.2 demoUpdated demoDirtyView (by decide)⟩

/-! ## Preservation of the store invariant

The invariant hypothesised by the round-trip claim holds in the initial
state (`storeInv_mk`) and is preserved by create-or-update and delete, so
it holds in every reachable store state. -/

/-- Distinct full indices differ in block id or offset. -/
theorem cell_ne_of_ne (d fi fj : Nat) (h : fj ≠ fi) :
    fj >>> d ≠ fi >>> d ∨ fj &&& idxMask d ≠ fi &&& idxMask d := by
  by_contra hc
  push_neg at hc
  exact h (block_offset_inj d fj fi hc.1 hc.2)

/-- Lookup across a single-pair append of a previously absent key. -/
theorem alookup_append_cases {α β : Type} [DecidableEq α] (k r : α) (fi : β)
    (l : List (α × β)) (hun : alookup r l = none) :
    alookup k (l ++ [(r, fi)]) = if k = r then some fi else alookup k l := by
  by_cases hk : k = r
  · subst hk
    rw [if_pos rfl]
    exact alookup_append_right k fi l hun
  · rw [if_neg hk]
    exact alookup_append_left k r fi l (fun hx => hk hx.symm)

/-- The invariant is preserved by `packed_store.__delitem__`. -/
theorem storeInv_delitem (s : PackedStore) (r : Int) (s' : PackedStore)
    (hinv : storeInv s) (hok : packed_delitem s r = .ok s') : storeInv s' := by
  obtain ⟨h1, h2, h3, h4, h5, h6, h7⟩ := hinv
  by_cases hr : r = 0
  · subst hr
    simp [packed_delitem] at hok
  · cases hse : alookup r s.ref_to_idx with
    | none => simp [packed_delitem, hr, hse] at hok
    | some fi =>
      simp only [packed_delitem, hr, if_false, hse] at hok
      injection hok with hR
      have href : s'.ref_to_idx
          = s.ref_to_idx.filter (fun kv => kv.1 ≠ r) := by rw [← hR]
      have hel : s'.empty_list = s.empty_list ++ [fi] := by rw [← hR]
      have hfld : s'.fields = s.fields := by rw [← hR]
      have hnf : s'.nextFresh = s.nextFresh := by rw [← hR]
      have hdelta : s'.delta_size = s.delta_size := by rw [← hR]
      have hdata : s'.data = resetFields s.fields (fi >>> s.delta_size)
          (fi &&& idxMask s.delta_size) s.data := by rw [← hR]
      have hlook : ∀ r' : Int, r' ≠ r →
          alookup r' s'.ref_to_idx = alookup r' s.ref_to_idx := by
        intro r' hne
        rw [href]
        exact alookup_filter_other r r' s.ref_to_idx hne
      have hlookr : alookup r s'.ref_to_idx = none := by
        rw [href]
        exact alookup_filter_self r s.ref_to_idx
      have hmap : ∀ (r' : Int) (fj : Nat), alookup r' s'.ref_to_idx = some fj →
          r' ≠ r ∧ alookup r' s.ref_to_idx = some fj := by
        intro r' fj hx
        by_cases hne : r' = r
        · rw [hne, hlookr] at hx
          cases hx
        · exact ⟨hne, by rw [← hlook r' hne]; exact hx⟩
      have hfreefi : slotFree s' fi := by
        intro r' hx
        obtain ⟨hne, hx'⟩ := hmap r' fi hx
        exact hne (h7 r' r fi hx' hse)
      have hfree' : ∀ fj, slotFree s fj → slotFree s' fj := by
        intro fj hf r' hx
        exact hf r' (hmap r' fj hx).2
      refine ⟨?_, ?_, ?_, ?_, ?_, ?_, ?_⟩
      · rw [hfld]
        exact h1
      · intro k f hk fj hfree
        rw [hfld] at hk
        show s'.data k (fj >>> s'.delta_size) (fj &&& idxMask s'.delta_size)
          = f.default
        rw [hdata, hdelta]
        by_cases hfj : fj = fi
        · rw [hfj]
          exact resetFields_lookup s.fields _ _ s.data k f h1 hk
        · have hfs : slotFree s fj := by
            intro r' hx
            by_cases hne : r' = r
            · rw [hne, hse] at hx
              exact hfj (Option.some.inj hx).symm
            · exact hfree r' (by rw [hlook r' hne]; exact hx)
          rw [resetFields_other_cell s.fields _ _ s.data k _ _
            (cell_ne_of_ne s.delta_size fi fj hfj)]
          exact h2 k f hk fj hfs
      · intro fj hfj
        rw [hel] at hfj
        rcases List.mem_append.mp hfj with hm | hm
        · exact hfree' fj (h3 fj hm)
        · simp only [List.mem_singleton] at hm
          rw [hm]
          exact hfreefi
      · rw [hel]
        have hfi_not : fi ∉ s.empty_list := fun hmem => h3 fi hmem r hse
        simp [List.nodup_append, h4, hfi_not]
      · intro fj hfj
        rw [hnf]
        rw [hel] at hfj
        rcases List.mem_append.mp hfj with hm | hm
        · exact h5 fj hm
        · simp only [List.mem_singleton] at hm
          rw [hm]
          exact h6 r fi hse
      · intro r' fj hx
        rw [hnf]
        exact h6 r' fj (hmap r' fj hx).2
      · intro r1 r2 fj hx1 hx2
        exact h7 r1 r2 fj (hmap r1 fj hx1).2 (hmap r2 fj hx2).2

/-- The invariant is preserved by `packed_store.__setitem__`. -/
theorem storeInv_setitem (s : PackedStore) (r : Int)
    (v : List (String × Option Int)) (s' : PackedStore)
    (hinv : storeInv s) (hok : packed_setitem s r v = .ok s') : storeInv s' := by
  obtain ⟨h1, h2, h3, h4, h5, h6, h7⟩ := hinv
  by_cases hr : r = 0
  · subst hr
    simp [packed_setitem] at hok
  · cases hse : alookup r s.ref_to_idx with
    | some fi =>
      rw [packed_setitem_seen s r fi v hr hse] at hok
      injection hok with hR
      have href : s'.ref_to_idx = s.ref_to_idx := by rw [← hR]
      have hel : s'.empty_list = s.empty_list := by rw [← hR]
      have hfld : s'.fields = s.fields := by rw [← hR]
      have hnf : s'.nextFresh = s.nextFresh := by rw [← hR]
      have hdelta : s'.delta_size = s.delta_size := by rw [← hR]
      have hdata : s'.data = applyValues s.fields (fi >>> s.delta_size)
          (fi &&& idxMask s.delta_size) v
          (writeData s.data "__modified__" (fi >>> s.delta_size)
            (fi &&& idxMask s.delta_size) 1) := by rw [← hR]
      refine ⟨by rw [hfld]; exact h1, ?_, ?_, by rw [hel]; exact h4, ?_, ?_, ?_⟩
      · intro k f hk fj hfree
        rw [hfld] at hk
        have hfs : slotFree s fj := fun r' hx =>
          hfree r' (by rw [href]; exact hx)
        have hfj : fj ≠ fi := by
          intro he
          apply hfree r
          rw [href, hse, he]
        show s'.data k (fj >>> s'.delta_size) (fj &&& idxMask s'.delta_size)
          = f.default
        rw [hdata, hdelta]
        rw [applyValues_other_cell s.fields _ _ v _ k _ _
          (cell_ne_of_ne s.delta_size fi fj hfj)]
        rw [writeData_other_cell s.data "__modified__" k _ _ _ _ 1
          (cell_ne_of_ne s.delta_size fi fj hfj)]
        exact h2 k f hk fj hfs
      · intro fj hfj
        rw [hel] at hfj
        intro r' hx
        exact h3 fj hfj r' (by rw [← href]; exact hx)
      · intro fj hfj
        rw [hnf]
        rw [hel] at hfj
        exact h5 fj hfj
      · intro r' fj hx
        rw [hnf]
        exact h6 r' fj (by rw [← href]; exact hx)
      · intro r1 r2 fj hx1 hx2
        rw [href] at hx1 hx2
        exact h7 r1 r2 fj hx1 hx2
    | none =>
      rw [packed_setitem_unseen s r v hr hse] at hok
      cases hel0 : s.empty_list with
      | nil =>
        rw [show nextIdx s = (s.nextFresh, { s with nextFresh := s.nextFresh + 1 })
          from by simp [nextIdx, hel0]] at hok
        injection hok with hR
        have href : s'.ref_to_idx = s.ref_to_idx ++ [(r, s.nextFresh)] := by
          rw [← hR]
        have hel : s'.empty_list = s.empty_list := by rw [← hR]
        have hfld : s'.fields = s.fields := by rw [← hR]
        have hnf : s'.nextFresh = s.nextFresh + 1 := by rw [← hR]
        have hdelta : s'.delta_size = s.delta_size := by rw [← hR]
        have hdata : s'.data = applyValues s.fields
            (s.nextFresh >>> s.delta_size) (s.nextFresh &&& idxMask s.delta_size)
            v (writeData s.data "__modified__" (s.nextFresh >>> s.delta_size)
              (s.nextFresh &&& idxMask s.delta_size) 0) := by rw [← hR]
        have hlookup : ∀ k : Int, alookup k s'.ref_to_idx
            = if k = r then some s.nextFresh else alookup k s.ref_to_idx := by
          intro k
          rw [href]
          exact alookup_append_cases k r s.nextFresh s.ref_to_idx hse
        refine ⟨by rw [hfld]; exact h1, ?_, ?_, by rw [hel]; exact h4, ?_, ?_, ?_⟩
        · intro k f hk fj hfree
          rw [hfld] at hk
          have hfjne : fj ≠ s.nextFresh := by
            intro he
            apply hfree r
            rw [hlookup r, if_pos rfl, he]
          have hfs : slotFree s fj := by
            intro r' hx
            apply hfree r'
            rw [hlookup r']
            by_cases hr' : r' = r
            · rw [hr', hse] at hx
              cases hx
            · rw [if_neg hr']
              exact hx
          show s'.data k (fj >>> s'.delta_size) (fj &&& idxMask s'.delta_size)
            = f.default
          rw [hdata, hdelta]
          rw [applyValues_other_cell s.fields _ _ v _ k _ _
            (cell_ne_of_ne s.delta_size s.nextFresh fj hfjne)]
          rw [writeData_other_cell s.data "__modified__" k _ _ _ _ 0
            (cell_ne_of_ne s.delta_size s.nextFresh fj hfjne)]
          exact h2 k f hk fj hfs
        · intro fj hfj
          rw [hel, hel0] at hfj
          cases hfj
        · intro fj hfj
          rw [hel, hel0] at hfj
          cases hfj
        · intro r' fj hx
          rw [hnf]
          rw [hlookup r'] at hx
          by_cases hr' : r' = r
          · rw [if_pos hr'] at hx
            have : s.nextFresh = fj := Option.some.inj hx
            omega
          · rw [if_neg hr'] at hx
            have := h6 r' fj hx
            omega
        · intro r1 r2 fj hx1 hx2
          rw [hlookup r1] at hx1
          rw [hlookup r2] at hx2
          by_cases hr1 : r1 = r <;> by_cases hr2 : r2 = r
          · rw [hr1, hr2]
          · rw [if_pos hr1] at hx1
            rw [if_neg hr2] at hx2
            have hfj : s.nextFresh = fj := Option.some.inj hx1
            have := h6 r2 fj hx2
            omega
          · rw [if_neg hr1] at hx1
            rw [if_pos hr2] at hx2
            have hfj : s.nextFresh = fj := Option.some.inj hx2
            have := h6 r1 fj hx1
            omega
          · rw [if_neg hr1] at hx1
            rw [if_neg hr2] at hx2
            exact h7 r1 r2 fj hx1 hx2
      | cons j t =>
        rw [show nextIdx s = (j, { s with empty_list := t })
          from by simp [nextIdx, hel0]] at hok
        injection hok with hR
        have href : s'.ref_to_idx = s.ref_to_idx ++ [(r, j)] := by rw [← hR]
        have hel : s'.empty_list = t := by rw [← hR]
        have hfld : s'.fields = s.fields := by rw [← hR]
        have hnf : s'.nextFresh = s.nextFresh := by rw [← hR]
        have hdelta : s'.delta_size = s.delta_size := by rw [← hR]
        have hdata : s'.data = applyValues s.fields
            (j >>> s.delta_size) (j &&& idxMask s.delta_size)
            v (writeData s.data "__modified__" (j >>> s.delta_size)
              (j &&& idxMask s.delta_size) 0) := by rw [← hR]
        have hjmem : j ∈ s.empty_list := by
          rw [hel0]
          exact List.mem_cons_self j t
        have hjt : j ∉ t ∧ t.Nodup := by
          rw [hel0] at h4
          exact List.nodup_cons.mp h4
        have hlookup : ∀ k : Int, alookup k s'.ref_to_idx
            = if k = r then some j else alookup k s.ref_to_idx := by
          intro k
          rw [href]
          exact alookup_append_cases k r j s.ref_to_idx hse
        refine ⟨by rw [hfld]; exact h1, ?_, ?_, by rw [hel]; exact hjt.2,
          ?_, ?_, ?_⟩
        · intro k f hk fj hfree
          rw [hfld] at hk
          have hfjne : fj ≠ j := by
            intro he
            apply hfree r
            rw [hlookup r, if_pos rfl, he]
          have hfs : slotFree s fj := by
            intro r' hx
            apply hfree r'
            rw [hlookup r']
            by_cases hr' : r' = r
            · rw [hr', hse] at hx
              cases hx
            · rw [if_neg hr']
              exact hx
          show s'.data k (fj >>> s'.delta_size) (fj &&& idxMask s'.delta_size)
            = f.default
          rw [hdata, hdelta]
          rw [applyValues_other_cell s.fields _ _ v _ k _ _
            (cell_ne_of_ne s.delta_size j fj hfjne)]
          rw [writeData_other_cell s.data "__modified__" k _ _ _ _ 0
            (cell_ne_of_ne s.delta_size j fj hfjne)]
          exact h2 k f hk fj hfs
        · intro fj hfj
          rw [hel] at hfj
          intro r' hx
          rw [hlookup r'] at hx
          by_cases hr' : r' = r
          · rw [if_pos hr'] at hx
            have : j = fj := Option.some.inj hx
            exact hjt.1 (this ▸ hfj)
          · rw [if_neg hr'] at hx
            exact h3 fj (by rw [hel0]; exact List.mem_cons_of_mem j hfj) r' hx
        · intro fj hfj
          rw [hnf]
          rw [hel] at hfj
          exact h5 fj (by rw [hel0]; exact List.mem_cons_of_mem j hfj)
        · intro r' fj hx
          rw [hnf]
          rw [hlookup r'] at hx
          by_cases hr' : r' = r
          · rw [if_pos hr'] at hx
            have : j = fj := Option.some.inj hx
            rw [← this]
            exact h5 j hjmem
          · rw [if_neg hr'] at hx
            exact h6 r' fj hx
        · intro r1 r2 fj hx1 hx2
          have hjfree : slotFree s j := h3 j hjmem
          rw [hlookup r1] at hx1
          rw [hlookup r2] at hx2
          by_cases hr1 : r1 = r <;> by_cases hr2 : r2 = r
          · rw [hr1, hr2]
          · rw [if_pos hr1] at hx1
            rw [if_neg hr2] at hx2
            have hfj : j = fj := Option.some.inj hx1
            exact absurd hx2 (by rw [← hfj]; exact hjfree r2)
          · rw [if_neg hr1] at hx1
            rw [if_pos hr2] at hx2
            have hfj : j = fj := Option.some.inj hx2
            exact absurd hx1 (by rw [← hfj]; exact hjfree r1)
          · rw [if_neg hr1] at hx1
            rw [if_neg hr2] at hx2
            exact h7 r1 r2 fj hx1 hx2
